import Mathlib

/-!
Verification of the streaming anomaly detector `fp_generate_patterns`.

The program reads timestamped samples, keeps every n-th one (decimation),
maintains an exponentially smoothed average of absolute sample-to-sample
differences (`diffavg`), counts consecutive exceedances of
`multiplicator_to_detect * diffavg`, raises an alarm after
`number_of_points_to_alarm` consecutive exceedances, then suppresses further
alarms for `wait_state_usec` microseconds and tags a pattern window of
`pattern_state_usec` microseconds.

Values are modelled as exact rationals, machine integers as `Int`.
-/

set_option autoImplicit false

universe u
variable {α : Type u}

/-- The seven configuration parameters (all `int` in the source). -/
structure Config where
  sampling : Int
  initial_avg_diff : Int
  number_of_points_to_alarm : Int
  wait_state_usec : Int
  multiplicator_to_detect : Int
  n_amend_avgdiff : Int
  pattern_state_usec : Int
deriving DecidableEq, Repr

/-- The compiled-in defaults (`SAMPLE_EACH` … `PATTERN_STATE_USEC`). -/
def defaultConfig : Config :=
  { sampling := 1
    initial_avg_diff := 200
    number_of_points_to_alarm := 5
    wait_state_usec := 1000000
    multiplicator_to_detect := 10
    n_amend_avgdiff := 500
    pattern_state_usec := 250000 }

/-- The `struct timeval` of the source: seconds and microseconds. -/
structure Timeval where
  tv_sec : Int
  tv_usec : Int
deriving DecidableEq, Repr

/-- Elapsed microseconds as the source computes it:
`(cur.tv_sec - prev.tv_sec) * 1000000 + (cur.tv_usec - prev.tv_usec)`. -/
def elapsedUsec (cur prev : Timeval) : Int :=
  (cur.tv_sec - prev.tv_sec) * 1000000 + (cur.tv_usec - prev.tv_usec)

/-- One parsed input line: a timestamp and a measured value. -/
structure Sample where
  time : Timeval
  value : ℚ
deriving DecidableEq, Repr

/-- The mutable state of the processing loop in `main`. -/
structure DState where
  cursample : Int
  isalarm : Int
  iswait : Int
  numthresholded : Int
  alarmraisetime : Timeval
  patternraisetime : Timeval
  lineid : Int
  lastval : ℚ
  diffavg : ℚ
  patternid : Int
  ispattern : Int
deriving DecidableEq, Repr

/-- The state at the start of the processing loop.  `lastval` is an
uninitialised `float` in the source; it is overwritten before its first
read (the first accepted sample sets `lastval = curval`), so the seed `0`
is never observable. -/
def initState (cfg : Config) : DState :=
  { cursample := cfg.sampling
    isalarm := 0
    iswait := 0
    numthresholded := cfg.number_of_points_to_alarm
    alarmraisetime := ⟨0, 0⟩
    patternraisetime := ⟨0, 0⟩
    lineid := 0
    lastval := 0
    diffavg := (cfg.initial_avg_diff : ℚ)
    patternid := 0
    ispattern := 0 }

/-- One emitted output line (after the header). -/
structure OutRec where
  lineid : Int
  time : Timeval
  meas : ℚ
  diff : ℚ
  curavg : ℚ
  isdetect : Int
  isalarm : Int
  iswait : Int
  patternid : Int
deriving DecidableEq, Repr

/-- The signed difference `diffnoabs = curval - lastval`, where on the first accepted sample
(`lineid` still 0) `lastval` has just been set to the sample's own value. -/
def sampleDiffSigned (st : DState) (smp : Sample) : ℚ :=
  smp.value - (if st.lineid = 0 then smp.value else st.lastval)

/-- The absolute difference `diff = abs(diffnoabs)`. -/
def sampleDiff (st : DState) (smp : Sample) : ℚ :=
  |sampleDiffSigned st smp|

/-- Pattern-window expiry: if in pattern state and the window has elapsed,
clear `ispattern`. -/
def patternStep (cfg : Config) (curtime : Timeval) (st : DState) : DState :=
  if st.ispattern = 1 ∧ elapsedUsec curtime st.patternraisetime > cfg.pattern_state_usec then
    { st with ispattern := 0 }
  else st

/-- Wait-state handling and exceedance counting (source lines 255–296):
in wait state, clear the alarm flag and possibly end the wait; otherwise
reset or decrement `numthresholded` and possibly raise the alarm. -/
def waitOrCountStep (cfg : Config) (curtime : Timeval) (diff : ℚ) (st : DState) : DState :=
  if st.iswait = 1 then
    let st := { st with isalarm := 0 }
    if elapsedUsec curtime st.alarmraisetime > cfg.wait_state_usec then
      { st with iswait := 0 }
    else st
  else
    if diff < (cfg.multiplicator_to_detect : ℚ) * st.diffavg then
      { st with numthresholded := cfg.number_of_points_to_alarm }
    else
      if st.numthresholded - 1 = 0 then
        { st with
            isalarm := 1
            alarmraisetime := curtime
            iswait := 1
            numthresholded := cfg.number_of_points_to_alarm
            patternid := st.patternid + 1
            ispattern := 1
            patternraisetime := curtime }
      else { st with numthresholded := st.numthresholded - 1 }

/-- Estimator amendment (source lines 301–302): update `diffavg` only
when not in wait state and no partial exceedance run is in progress. -/
def amendStep (cfg : Config) (diff : ℚ) (st : DState) : DState :=
  if st.iswait = 0 ∧ st.numthresholded = cfg.number_of_points_to_alarm then
    { st with
        diffavg := (st.diffavg * ((cfg.n_amend_avgdiff - 1 : Int) : ℚ) + diff)
          / (cfg.n_amend_avgdiff : ℚ) }
  else st

/-- The state right before the estimator amendment (after pattern expiry
and wait/count handling) — the "estimator-update step" program point. -/
def midState (cfg : Config) (st : DState) (smp : Sample) : DState :=
  waitOrCountStep cfg smp.time (sampleDiff st smp)
    (patternStep cfg smp.time { st with lineid := st.lineid + 1 })

/-- Processing of one accepted (non-decimated) sample: the loop body of
`main` from line 229 to the output statement, returning the new state and
the emitted record. -/
def processSample (cfg : Config) (st : DState) (smp : Sample) : DState × OutRec :=
  let diffnoabs := sampleDiffSigned st smp
  let st4 := amendStep cfg (sampleDiff st smp) (midState cfg st smp)
  let st5 := { st4 with lastval := smp.value }
  (st5,
    { lineid := st5.lineid
      time := smp.time
      meas := smp.value
      diff := diffnoabs
      curavg := st5.diffavg
      isdetect := if st5.numthresholded = cfg.number_of_points_to_alarm then 0 else 1
      isalarm := st5.isalarm
      iswait := st5.iswait
      patternid := if st5.ispattern ≠ 0 then st5.patternid else 0 })

/-- One accepted sample, with its pre-state, post-state and emitted record. -/
structure Step where
  pre : DState
  smp : Sample
  post : DState
  out : OutRec
deriving DecidableEq, Repr

/-- The whole run: the decimator (`if (cursample-- > 1) continue; else
cursample = sampling;`) followed by `processSample` for each accepted
sample, collecting one `Step` per accepted sample. -/
def stepsFrom (cfg : Config) (st : DState) : List Sample → List Step
  | [] => []
  | smp :: rest =>
    if st.cursample > 1 then
      stepsFrom cfg { st with cursample := st.cursample - 1 } rest
    else
      let pre := { st with cursample := cfg.sampling }
      let p := processSample cfg pre smp
      { pre := pre, smp := smp, post := p.1, out := p.2 } :: stepsFrom cfg p.1 rest

/-- All accepted-sample steps of a run from the initial state. -/
def steps (cfg : Config) (input : List Sample) : List Step :=
  stepsFrom cfg (initState cfg) input

/-- The emitted data lines of a run. -/
def run (cfg : Config) (input : List Sample) : List OutRec :=
  (steps cfg input).map Step.out

/-- Decimation in isolation: countdown selection with counter `c` and
stride `k`, as the loop performs it. -/
def selectEvery (k : Int) : Int → List α → List α
  | _, [] => []
  | c, x :: xs => if c > 1 then selectEvery k (c - 1) xs else x :: selectEvery k k xs

/-- Argument evaluation of `main` (lines 99–144): `argc = args.length + 1`;
1–6 arguments is an error; exactly 7 arguments replace the defaults; any
resulting parameter `< 1` is an error. -/
def evalArgs (args : List Int) : Except Unit Config :=
  if 0 < args.length ∧ args.length < 7 then Except.error ()
  else
    let cfg : Config :=
      if h : args.length = 7 then
        { sampling := args.get ⟨0, by omega⟩
          initial_avg_diff := args.get ⟨1, by omega⟩
          number_of_points_to_alarm := args.get ⟨2, by omega⟩
          wait_state_usec := args.get ⟨3, by omega⟩
          multiplicator_to_detect := args.get ⟨4, by omega⟩
          n_amend_avgdiff := args.get ⟨5, by omega⟩
          pattern_state_usec := args.get ⟨6, by omega⟩ }
      else defaultConfig
    if cfg.sampling < 1 ∨ cfg.initial_avg_diff < 1 ∨ cfg.number_of_points_to_alarm < 1 ∨
        cfg.wait_state_usec < 1 ∨ cfg.multiplicator_to_detect < 1 ∨
        cfg.n_amend_avgdiff < 1 ∨ cfg.pattern_state_usec < 1 then
      Except.error ()
    else Except.ok cfg

/-- The whole program: argument validation, then the processing loop.
`Except.error ()` is the early `return 1` (no input is consumed). -/
def mainRun (args : List Int) (input : List Sample) : Except Unit (List OutRec) :=
  match evalArgs args with
  | Except.error e => Except.error e
  | Except.ok cfg => Except.ok (run cfg input)

/-- All seven parameters are at least 1 (the check at lines 124–130). -/
def ValidConfig (cfg : Config) : Prop :=
  1 ≤ cfg.sampling ∧ 1 ≤ cfg.initial_avg_diff ∧ 1 ≤ cfg.number_of_points_to_alarm ∧
    1 ≤ cfg.wait_state_usec ∧ 1 ≤ cfg.multiplicator_to_detect ∧
    1 ≤ cfg.n_amend_avgdiff ∧ 1 ≤ cfg.pattern_state_usec

instance (cfg : Config) : Decidable (ValidConfig cfg) := by
  unfold ValidConfig; infer_instance

/-- Invariant of the loop state (ignoring `cursample` and `lastval`):
flag fields hold 0 or 1, the countdown stays in `[1, run_length]`, the
pattern counter is non-negative, a set alarm flag implies wait state, and
an open pattern window implies a positive pattern id. -/
def LoopInv (cfg : Config) (st : DState) : Prop :=
  1 ≤ st.numthresholded ∧ st.numthresholded ≤ cfg.number_of_points_to_alarm ∧
    (st.isalarm = 0 ∨ st.isalarm = 1) ∧ (st.iswait = 0 ∨ st.iswait = 1) ∧
    (st.ispattern = 0 ∨ st.ispattern = 1) ∧ 0 ≤ st.patternid ∧
    (st.isalarm = 1 → st.iswait = 1) ∧ (st.ispattern = 1 → 1 ≤ st.patternid)

instance (cfg : Config) (st : DState) : Decidable (LoopInv cfg st) := by
  unfold LoopInv; infer_instance

/-! ### Field-preservation lemmas for the three phases -/

@[simp] theorem patternStep_cursample (cfg : Config) (t : Timeval) (st : DState) :
    (patternStep cfg t st).cursample = st.cursample := by
  unfold patternStep; split <;> rfl

@[simp] theorem patternStep_isalarm (cfg : Config) (t : Timeval) (st : DState) :
    (patternStep cfg t st).isalarm = st.isalarm := by
  unfold patternStep; split <;> rfl

@[simp] theorem patternStep_iswait (cfg : Config) (t : Timeval) (st : DState) :
    (patternStep cfg t st).iswait = st.iswait := by
  unfold patternStep; split <;> rfl

@[simp] theorem patternStep_numthresholded (cfg : Config) (t : Timeval) (st : DState) :
    (patternStep cfg t st).numthresholded = st.numthresholded := by
  unfold patternStep; split <;> rfl

@[simp] theorem patternStep_alarmraisetime (cfg : Config) (t : Timeval) (st : DState) :
    (patternStep cfg t st).alarmraisetime = st.alarmraisetime := by
  unfold patternStep; split <;> rfl

@[simp] theorem patternStep_lineid (cfg : Config) (t : Timeval) (st : DState) :
    (patternStep cfg t st).lineid = st.lineid := by
  unfold patternStep; split <;> rfl

@[simp] theorem patternStep_lastval (cfg : Config) (t : Timeval) (st : DState) :
    (patternStep cfg t st).lastval = st.lastval := by
  unfold patternStep; split <;> rfl

@[simp] theorem patternStep_diffavg (cfg : Config) (t : Timeval) (st : DState) :
    (patternStep cfg t st).diffavg = st.diffavg := by
  unfold patternStep; split <;> rfl

@[simp] theorem patternStep_patternid (cfg : Config) (t : Timeval) (st : DState) :
    (patternStep cfg t st).patternid = st.patternid := by
  unfold patternStep; split <;> rfl

@[simp] theorem waitOrCountStep_cursample (cfg : Config) (t : Timeval) (d : ℚ) (st : DState) :
    (waitOrCountStep cfg t d st).cursample = st.cursample := by
  unfold waitOrCountStep; dsimp only; split_ifs <;> rfl

@[simp] theorem waitOrCountStep_lineid (cfg : Config) (t : Timeval) (d : ℚ) (st : DState) :
    (waitOrCountStep cfg t d st).lineid = st.lineid := by
  unfold waitOrCountStep; dsimp only; split_ifs <;> rfl

@[simp] theorem waitOrCountStep_lastval (cfg : Config) (t : Timeval) (d : ℚ) (st : DState) :
    (waitOrCountStep cfg t d st).lastval = st.lastval := by
  unfold waitOrCountStep; dsimp only; split_ifs <;> rfl

@[simp] theorem waitOrCountStep_diffavg (cfg : Config) (t : Timeval) (d : ℚ) (st : DState) :
    (waitOrCountStep cfg t d st).diffavg = st.diffavg := by
  unfold waitOrCountStep; dsimp only; split_ifs <;> rfl

@[simp] theorem amendStep_cursample (cfg : Config) (d : ℚ) (st : DState) :
    (amendStep cfg d st).cursample = st.cursample := by
  unfold amendStep; split <;> rfl

@[simp] theorem amendStep_isalarm (cfg : Config) (d : ℚ) (st : DState) :
    (amendStep cfg d st).isalarm = st.isalarm := by
  unfold amendStep; split <;> rfl

@[simp] theorem amendStep_iswait (cfg : Config) (d : ℚ) (st : DState) :
    (amendStep cfg d st).iswait = st.iswait := by
  unfold amendStep; split <;> rfl

@[simp] theorem amendStep_numthresholded (cfg : Config) (d : ℚ) (st : DState) :
    (amendStep cfg d st).numthresholded = st.numthresholded := by
  unfold amendStep; split <;> rfl

@[simp] theorem amendStep_alarmraisetime (cfg : Config) (d : ℚ) (st : DState) :
    (amendStep cfg d st).alarmraisetime = st.alarmraisetime := by
  unfold amendStep; split <;> rfl

@[simp] theorem amendStep_patternraisetime (cfg : Config) (d : ℚ) (st : DState) :
    (amendStep cfg d st).patternraisetime = st.patternraisetime := by
  unfold amendStep; split <;> rfl

@[simp] theorem amendStep_lineid (cfg : Config) (d : ℚ) (st : DState) :
    (amendStep cfg d st).lineid = st.lineid := by
  unfold amendStep; split <;> rfl

@[simp] theorem amendStep_lastval (cfg : Config) (d : ℚ) (st : DState) :
    (amendStep cfg d st).lastval = st.lastval := by
  unfold amendStep; split <;> rfl

@[simp] theorem amendStep_patternid (cfg : Config) (d : ℚ) (st : DState) :
    (amendStep cfg d st).patternid = st.patternid := by
  unfold amendStep; split <;> rfl

@[simp] theorem amendStep_ispattern (cfg : Config) (d : ℚ) (st : DState) :
    (amendStep cfg d st).ispattern = st.ispattern := by
  unfold amendStep; split <;> rfl

/-! ### Unfolding lemmas for `processSample` -/

theorem processSample_fst (cfg : Config) (st : DState) (smp : Sample) :
    (processSample cfg st smp).1 =
      { amendStep cfg (sampleDiff st smp) (midState cfg st smp) with lastval := smp.value } :=
  rfl

@[simp] theorem processSample_post_cursample (cfg : Config) (st : DState) (smp : Sample) :
    (processSample cfg st smp).1.cursample = st.cursample := by
  simp [processSample_fst, midState]

@[simp] theorem processSample_post_lineid (cfg : Config) (st : DState) (smp : Sample) :
    (processSample cfg st smp).1.lineid = st.lineid + 1 := by
  simp [processSample_fst, midState]

@[simp] theorem processSample_post_lastval (cfg : Config) (st : DState) (smp : Sample) :
    (processSample cfg st smp).1.lastval = smp.value :=
  rfl

@[simp] theorem processSample_out_meas (cfg : Config) (st : DState) (smp : Sample) :
    (processSample cfg st smp).2.meas = smp.value :=
  rfl

@[simp] theorem processSample_out_diff (cfg : Config) (st : DState) (smp : Sample) :
    (processSample cfg st smp).2.diff = sampleDiffSigned st smp :=
  rfl

@[simp] theorem processSample_out_lineid (cfg : Config) (st : DState) (smp : Sample) :
    (processSample cfg st smp).2.lineid = st.lineid + 1 := by
  have : (processSample cfg st smp).2.lineid = (processSample cfg st smp).1.lineid := rfl
  rw [this, processSample_post_lineid]

@[simp] theorem processSample_out_isalarm (cfg : Config) (st : DState) (smp : Sample) :
    (processSample cfg st smp).2.isalarm = (processSample cfg st smp).1.isalarm :=
  rfl

@[simp] theorem processSample_out_iswait (cfg : Config) (st : DState) (smp : Sample) :
    (processSample cfg st smp).2.iswait = (processSample cfg st smp).1.iswait :=
  rfl

@[simp] theorem processSample_out_curavg (cfg : Config) (st : DState) (smp : Sample) :
    (processSample cfg st smp).2.curavg = (processSample cfg st smp).1.diffavg :=
  rfl

theorem processSample_out_isdetect (cfg : Config) (st : DState) (smp : Sample) :
    (processSample cfg st smp).2.isdetect =
      if (processSample cfg st smp).1.numthresholded = cfg.number_of_points_to_alarm
      then 0 else 1 :=
  rfl

theorem processSample_out_patternid (cfg : Config) (st : DState) (smp : Sample) :
    (processSample cfg st smp).2.patternid =
      if (processSample cfg st smp).1.ispattern ≠ 0
      then (processSample cfg st smp).1.patternid else 0 :=
  rfl

/-! ### The loop invariant is established and preserved -/

theorem loopInv_initState (cfg : Config) (hv : ValidConfig cfg) :
    LoopInv cfg (initState cfg) := by
  obtain ⟨h1, h2, h3, h4, h5, h6, h7⟩ := hv
  unfold LoopInv initState
  simp
  omega

theorem loopInv_patternStep (cfg : Config) (t : Timeval) (st : DState)
    (h : LoopInv cfg st) : LoopInv cfg (patternStep cfg t st) := by
  unfold LoopInv at h ⊢
  unfold patternStep
  split <;> simp_all

theorem loopInv_waitOrCountStep (cfg : Config) (t : Timeval) (d : ℚ) (st : DState)
    (hv : ValidConfig cfg) (h : LoopInv cfg st) :
    LoopInv cfg (waitOrCountStep cfg t d st) := by
  obtain ⟨hv1, hv2, hv3, hv4, hv5, hv6, hv7⟩ := hv
  unfold LoopInv at h ⊢
  unfold waitOrCountStep
  dsimp only
  split_ifs <;> simp_all <;> omega

theorem loopInv_amendStep (cfg : Config) (d : ℚ) (st : DState)
    (h : LoopInv cfg st) : LoopInv cfg (amendStep cfg d st) := by
  unfold LoopInv at h ⊢
  unfold amendStep
  split <;> simp_all <;> omega

theorem loopInv_processSample (cfg : Config) (st : DState) (smp : Sample)
    (hv : ValidConfig cfg) (h : LoopInv cfg st) :
    LoopInv cfg (processSample cfg st smp).1 := by
  rw [processSample_fst]
  have h4 : LoopInv cfg (amendStep cfg (sampleDiff st smp) (midState cfg st smp)) := by
    apply loopInv_amendStep
    apply loopInv_waitOrCountStep _ _ _ _ hv
    apply loopInv_patternStep
    exact h
  exact h4

/-! ### Soundness and invariants of the step list -/

theorem stepsFrom_sound (cfg : Config) :
    ∀ (input : List Sample) (st : DState), ∀ s ∈ stepsFrom cfg st input,
      (s.post, s.out) = processSample cfg s.pre s.smp
  | [], st => by simp [stepsFrom]
  | smp :: rest, st => by
    intro s hs
    rw [stepsFrom] at hs
    split at hs
    · exact stepsFrom_sound cfg rest _ s hs
    · rcases List.mem_cons.mp hs with h | h
      · subst h; rfl
      · exact stepsFrom_sound cfg rest _ s h

theorem stepsFrom_inv (cfg : Config) (hv : ValidConfig cfg) :
    ∀ (input : List Sample) (st : DState), LoopInv cfg st →
      ∀ s ∈ stepsFrom cfg st input, LoopInv cfg s.pre ∧ LoopInv cfg s.post
  | [], st => by simp [stepsFrom]
  | smp :: rest, st => by
    intro hst s hs
    rw [stepsFrom] at hs
    split at hs
    · exact stepsFrom_inv cfg hv rest { st with cursample := st.cursample - 1 } hst s hs
    · have hpre : LoopInv cfg ({ st with cursample := cfg.sampling }) := hst
      rcases List.mem_cons.mp hs with h | h
      · subst h
        exact ⟨hpre, loopInv_processSample cfg _ smp hv hpre⟩
      · exact stepsFrom_inv cfg hv rest _
          (loopInv_processSample cfg _ smp hv hpre) s h

theorem steps_sound (cfg : Config) (input : List Sample) :
    ∀ s ∈ steps cfg input, (s.post, s.out) = processSample cfg s.pre s.smp :=
  stepsFrom_sound cfg input (initState cfg)

theorem steps_inv (cfg : Config) (hv : ValidConfig cfg) (input : List Sample) :
    ∀ s ∈ steps cfg input, LoopInv cfg s.pre ∧ LoopInv cfg s.post :=
  stepsFrom_inv cfg hv input (initState cfg) (loopInv_initState cfg hv)

/-! ### The decimator forwards the k-th, 2k-th, 3k-th, … input samples -/

theorem stepsFrom_map_smp (cfg : Config) :
    ∀ (input : List Sample) (st : DState),
      (stepsFrom cfg st input).map Step.smp = selectEvery cfg.sampling st.cursample input
  | [], st => by simp [stepsFrom, selectEvery]
  | smp :: rest, st => by
    rw [stepsFrom, selectEvery]
    split_ifs with h
    · exact stepsFrom_map_smp cfg rest { st with cursample := st.cursample - 1 }
    · rw [List.map_cons, stepsFrom_map_smp cfg rest _]
      have h2 : (processSample cfg { st with cursample := cfg.sampling } smp).1.cursample =
          cfg.sampling := by simp
      rw [h2]

theorem selectEvery_getElem? {α : Type} (k : Int) :
    ∀ (xs : List α) (c : Int) (j : ℕ), 1 ≤ c → c ≤ k →
      (selectEvery k c xs)[j]? = xs[(c - 1).toNat + j * k.toNat]?
  | [], c, j => by intro h1 h2; simp [selectEvery]
  | x :: xs, c, j => by
    intro h1 h2
    rw [selectEvery]
    split_ifs with h
    · rw [selectEvery_getElem? k xs (c - 1) j (by omega) (by omega)]
      obtain ⟨m, hm⟩ : ∃ m, (c - 1).toNat + j * k.toNat = m + 1 :=
        ⟨(c - 2).toNat + j * k.toNat, by omega⟩
      rw [hm, List.getElem?_cons_succ]
      congr 1
      omega
    · match j with
      | 0 =>
        have h0 : (c - 1).toNat + 0 * k.toNat = 0 := by omega
        rw [h0, List.getElem?_cons_zero, List.getElem?_cons_zero]
      | j + 1 =>
        rw [List.getElem?_cons_succ,
          selectEvery_getElem? k xs k j (by omega) (by omega)]
        have hm : (c - 1).toNat + (j + 1) * k.toNat = ((k - 1).toNat + j * k.toNat) + 1 := by
          rw [Nat.succ_mul]
          omega
        rw [hm, List.getElem?_cons_succ]

theorem run_map_meas (cfg : Config) (input : List Sample) :
    (run cfg input).map OutRec.meas =
      (selectEvery cfg.sampling cfg.sampling input).map Sample.value := by
  unfold run steps
  have h1 : (stepsFrom cfg (initState cfg) input).map Step.smp =
      selectEvery cfg.sampling cfg.sampling input :=
    stepsFrom_map_smp cfg input (initState cfg)
  rw [← h1, List.map_map, List.map_map]
  apply List.map_congr_left
  intro s hs
  have hsd := stepsFrom_sound cfg input (initState cfg) s hs
  have h2 : s.out = (processSample cfg s.pre s.smp).2 := congrArg Prod.snd hsd
  show s.out.meas = s.smp.value
  rw [h2, processSample_out_meas]

theorem stepsFrom_out_lineid (cfg : Config) :
    ∀ (input : List Sample) (st : DState) (j : ℕ) (s : Step),
      (stepsFrom cfg st input)[j]? = some s → s.out.lineid = st.lineid + j + 1
  | [], st, j, s => by simp [stepsFrom]
  | smp :: rest, st, j, s => by
    intro hs
    rw [stepsFrom] at hs
    split at hs
    · exact stepsFrom_out_lineid cfg rest { st with cursample := st.cursample - 1 } j s hs
    · match j with
      | 0 =>
        rw [List.getElem?_cons_zero] at hs
        obtain rfl := Option.some.inj hs
        show (processSample cfg { st with cursample := cfg.sampling } smp).2.lineid =
          st.lineid + 0 + 1
        rw [processSample_out_lineid]
        simp
      | j + 1 =>
        rw [List.getElem?_cons_succ] at hs
        have hrec := stepsFrom_out_lineid cfg rest _ j s hs
        rw [processSample_post_lineid] at hrec
        show s.out.lineid = st.lineid + (↑j + 1) + 1
        rw [hrec]
        push_cast
        ring

/-- Concrete stride-3 configuration (the other parameters are chosen
small; the decimator ignores them). -/
def cfg3 : Config := ⟨3, 1, 1, 1000000, 1, 1, 1000000⟩

/-- Nine input samples with pairwise distinct values 10, 20, …, 90. -/
def xs9 : List Sample :=
  [⟨⟨0, 1⟩, 10⟩, ⟨⟨0, 2⟩, 20⟩, ⟨⟨0, 3⟩, 30⟩, ⟨⟨0, 4⟩, 40⟩, ⟨⟨0, 5⟩, 50⟩,
    ⟨⟨0, 6⟩, 60⟩, ⟨⟨0, 7⟩, 70⟩, ⟨⟨0, 8⟩, 80⟩, ⟨⟨0, 9⟩, 90⟩]

/-- C1 (amended): for stride `k ≥ 1` the decimator forwards exactly the
k-th, 2k-th, 3k-th, … input samples in arrival order (not the 1st,
(k+1)-th, …): the j-th emitted record (0-based) carries the value of input
sample `(j+1)·k` (1-based), there is no record once that index is out of
range, and the j-th record carries `line_id = j + 1`. -/
theorem C1_decimator_forwards_every_kth (cfg : Config) (hv : ValidConfig cfg)
    (input : List Sample) (j : ℕ) :
    ((run cfg input).map OutRec.meas)[j]? =
      (input[(j + 1) * cfg.sampling.toNat - 1]?).map Sample.value ∧
    (∀ r, (run cfg input)[j]? = some r → r.lineid = (j : Int) + 1) := by
  have hs1 : 1 ≤ cfg.sampling := hv.1
  constructor
  · rw [run_map_meas, List.getElem?_map,
      selectEvery_getElem? cfg.sampling input cfg.sampling j hs1 le_rfl]
    have hidx : (cfg.sampling - 1).toNat + j * cfg.sampling.toNat =
        (j + 1) * cfg.sampling.toNat - 1 := by
      rw [Nat.succ_mul]
      omega
    rw [hidx]
  · intro r hr
    unfold run at hr
    rw [List.getElem?_map] at hr
    rcases Option.map_eq_some'.mp hr with ⟨s, hs, rfl⟩
    have h2 := stepsFrom_out_lineid cfg input (initState cfg) j s hs
    simpa [initState] using h2

/-- C1 counterexample: with stride 3 on nine samples of values 10…90 the
run emits the 3rd, 6th and 9th samples (values 30, 60, 90), not the 1st,
4th and 7th (values 10, 40, 70) the claim names; the record count (3) and
the `line_id` values (1, 2, 3) do hold. -/
theorem C1_counterexample :
    ValidConfig cfg3 ∧ cfg3.sampling = 3 ∧ xs9.length = 9 ∧
    xs9.map Sample.value = [10, 20, 30, 40, 50, 60, 70, 80, 90] ∧
    (run cfg3 xs9).map OutRec.meas = [30, 60, 90] ∧
    (run cfg3 xs9).map OutRec.meas ≠ [10, 40, 70] ∧
    (run cfg3 xs9).map OutRec.lineid = [1, 2, 3] := by
  have hmeas : (run cfg3 xs9).map OutRec.meas = [30, 60, 90] := by
    rw [run_map_meas]
    decide
  have hlen3 : (run cfg3 xs9).length = 3 := by
    simpa using congrArg List.length hmeas
  have hlineid : (run cfg3 xs9).map OutRec.lineid = [1, 2, 3] := by
    apply List.ext_getElem?
    intro n
    rw [List.getElem?_map]
    rcases Nat.lt_or_ge n 3 with hn | hn
    · have hn2 : n < (run cfg3 xs9).length := by omega
      obtain ⟨r, hr⟩ : ∃ r, (run cfg3 xs9)[n]? = some r :=
        ⟨_, List.getElem?_eq_getElem hn2⟩
      rw [hr]
      have hr2 := hr
      unfold run at hr2
      rw [List.getElem?_map] at hr2
      rcases Option.map_eq_some'.mp hr2 with ⟨s, hs, hout⟩
      have hl := stepsFrom_out_lineid cfg3 xs9 (initState cfg3) n s hs
      have hl2 : r.lineid = (n : Int) + 1 := by
        rw [← hout]
        simpa [initState] using hl
      rw [Option.map_some', hl2]
      interval_cases n <;> rfl
    · have h1 : ((run cfg3 xs9)[n]?) = none := by
        rw [List.getElem?_eq_none_iff]
        omega
      have h2 : ([1, 2, 3] : List Int)[n]? = none := by
        rw [List.getElem?_eq_none_iff]
        simpa using hn
      rw [h1, h2]
      rfl
  exact ⟨by decide, rfl, rfl, by decide, hmeas, by rw [hmeas]; decide, hlineid⟩

/-- C1 witness: the amended theorem evaluated at the stride-3
configuration, the nine-sample input and record index 0. -/
theorem C1_witness :
    ValidConfig cfg3 ∧
      (((run cfg3 xs9).map OutRec.meas)[0]? =
          (xs9[(0 + 1) * cfg3.sampling.toNat - 1]?).map Sample.value ∧
        (∀ r, (run cfg3 xs9)[0]? = some r → r.lineid = ((0 : ℕ) : Int) + 1)) :=
  ⟨by decide, C1_decimator_forwards_every_kth cfg3 (by decide) xs9 0⟩

/-! ### Branch-case equations for the wait/count phase -/

theorem waitOrCountStep_expire (cfg : Config) (t : Timeval) (d : ℚ) (st : DState)
    (hw : st.iswait = 1) (h : elapsedUsec t st.alarmraisetime > cfg.wait_state_usec) :
    waitOrCountStep cfg t d st = { st with isalarm := 0, iswait := 0 } := by
  unfold waitOrCountStep
  dsimp only
  rw [if_pos hw, if_pos h]

theorem waitOrCountStep_hold (cfg : Config) (t : Timeval) (d : ℚ) (st : DState)
    (hw : st.iswait = 1) (h : ¬ elapsedUsec t st.alarmraisetime > cfg.wait_state_usec) :
    waitOrCountStep cfg t d st = { st with isalarm := 0 } := by
  unfold waitOrCountStep
  dsimp only
  rw [if_pos hw, if_neg h]

theorem waitOrCountStep_reset (cfg : Config) (t : Timeval) (d : ℚ) (st : DState)
    (hw : ¬ st.iswait = 1)
    (hd : d < (cfg.multiplicator_to_detect : ℚ) * st.diffavg) :
    waitOrCountStep cfg t d st =
      { st with numthresholded := cfg.number_of_points_to_alarm } := by
  unfold waitOrCountStep
  rw [if_neg hw, if_pos hd]

theorem waitOrCountStep_fire (cfg : Config) (t : Timeval) (d : ℚ) (st : DState)
    (hw : ¬ st.iswait = 1)
    (hd : ¬ d < (cfg.multiplicator_to_detect : ℚ) * st.diffavg)
    (hnt : st.numthresholded - 1 = 0) :
    waitOrCountStep cfg t d st =
      { st with
          isalarm := 1
          alarmraisetime := t
          iswait := 1
          numthresholded := cfg.number_of_points_to_alarm
          patternid := st.patternid + 1
          ispattern := 1
          patternraisetime := t } := by
  unfold waitOrCountStep
  rw [if_neg hw, if_neg hd, if_pos hnt]

theorem waitOrCountStep_decr (cfg : Config) (t : Timeval) (d : ℚ) (st : DState)
    (hw : ¬ st.iswait = 1)
    (hd : ¬ d < (cfg.multiplicator_to_detect : ℚ) * st.diffavg)
    (hnt : ¬ st.numthresholded - 1 = 0) :
    waitOrCountStep cfg t d st =
      { st with numthresholded := st.numthresholded - 1 } := by
  unfold waitOrCountStep
  rw [if_neg hw, if_neg hd, if_neg hnt]

theorem waitOrCountStep_iswait_01 (cfg : Config) (t : Timeval) (d : ℚ) (st : DState)
    (hwf : st.iswait = 0 ∨ st.iswait = 1) :
    (waitOrCountStep cfg t d st).iswait = 0 ∨ (waitOrCountStep cfg t d st).iswait = 1 := by
  unfold waitOrCountStep
  dsimp only
  split_ifs <;> simp_all

@[simp] theorem midState_diffavg (cfg : Config) (st : DState) (smp : Sample) :
    (midState cfg st smp).diffavg = st.diffavg := by
  simp [midState]

theorem processSample_post_diffavg (cfg : Config) (st : DState) (smp : Sample) :
    (processSample cfg st smp).1.diffavg =
      (amendStep cfg (sampleDiff st smp) (midState cfg st smp)).diffavg :=
  rfl

/-- C3: on every accepted sample, if `is_wait` is true at the
estimator-update step, or `remaining_to_alarm` differs from `run_length`
there, `avg_diff` is unchanged by the sample; otherwise it becomes
`(avg_diff·(smoothing−1) + diff)/smoothing`. -/
theorem C3_estimator_freeze (cfg : Config) (st : DState) (smp : Sample)
    (hwf : st.iswait = 0 ∨ st.iswait = 1) :
    (((midState cfg st smp).iswait = 1 ∨
        (midState cfg st smp).numthresholded ≠ cfg.number_of_points_to_alarm) →
      (processSample cfg st smp).1.diffavg = st.diffavg) ∧
    ((¬ (midState cfg st smp).iswait = 1 ∧
        (midState cfg st smp).numthresholded = cfg.number_of_points_to_alarm) →
      (processSample cfg st smp).1.diffavg =
        (st.diffavg * ((cfg.n_amend_avgdiff - 1 : Int) : ℚ) + sampleDiff st smp)
          / (cfg.n_amend_avgdiff : ℚ)) := by
  have hmidwf : (midState cfg st smp).iswait = 0 ∨ (midState cfg st smp).iswait = 1 := by
    unfold midState
    apply waitOrCountStep_iswait_01
    simpa using hwf
  rw [processSample_post_diffavg]
  unfold amendStep
  constructor
  · intro h
    split_ifs with hc
    · exfalso
      rcases h with h | h
      · omega
      · exact h hc.2
    · simp
  · intro h
    split_ifs with hc
    · simp
    · exfalso
      apply hc
      refine ⟨?_, h.2⟩
      omega

/-- Configuration used by the C3 witness. -/
def cfgC3w : Config := ⟨1, 5, 1, 100, 1, 4, 100⟩

/-- C3 witness input state: in wait state, counter 1, positive average. -/
def stC3 : DState :=
  { cursample := 1
    isalarm := 1
    iswait := 1
    numthresholded := 1
    alarmraisetime := ⟨0, 1⟩
    patternraisetime := ⟨0, 1⟩
    lineid := 2
    lastval := 0
    diffavg := 5
    patternid := 1
    ispattern := 1 }

/-- A sample used by several concrete instantiations. -/
def smpC3 : Sample := ⟨⟨0, 2⟩, 7⟩

/-- C3 witness: the freeze/update dichotomy evaluated at a concrete
wait-state configuration and sample. -/
theorem C3_witness :
    (stC3.iswait = 0 ∨ stC3.iswait = 1) ∧
      ((((midState cfgC3w stC3 smpC3).iswait = 1 ∨
          (midState cfgC3w stC3 smpC3).numthresholded ≠
            cfgC3w.number_of_points_to_alarm) →
        (processSample cfgC3w stC3 smpC3).1.diffavg = stC3.diffavg) ∧
      ((¬ (midState cfgC3w stC3 smpC3).iswait = 1 ∧
          (midState cfgC3w stC3 smpC3).numthresholded =
            cfgC3w.number_of_points_to_alarm) →
        (processSample cfgC3w stC3 smpC3).1.diffavg =
          (stC3.diffavg * ((cfgC3w.n_amend_avgdiff - 1 : Int) : ℚ) + sampleDiff stC3 smpC3)
            / (cfgC3w.n_amend_avgdiff : ℚ))) :=
  ⟨Or.inr rfl, C3_estimator_freeze cfgC3w stC3 smpC3 (Or.inr rfl)⟩

/-- C2 (amended): if a sample is processed in wait state exactly
`wait_state_usec + 1` µs after the alarm was raised, the wait state ends on
that sample (`iswait` is emitted as 0) and no alarm fires on it, but the
exceedance counting is skipped on that very sample (`numthresholded` is
unchanged); the counting / alarm-raising logic is live again from the next
accepted sample onward: a next sample at or above threshold with the
counter at 1 fires an alarm. -/
theorem C2_cooldown_expiry (cfg : Config) (st : DState) (smp : Sample)
    (hw : st.iswait = 1)
    (hexp : elapsedUsec smp.time st.alarmraisetime = cfg.wait_state_usec + 1) :
    (processSample cfg st smp).2.iswait = 0 ∧
    (processSample cfg st smp).2.isalarm = 0 ∧
    (processSample cfg st smp).1.iswait = 0 ∧
    (processSample cfg st smp).1.numthresholded = st.numthresholded ∧
    (∀ smp2 : Sample,
      ¬ sampleDiff (processSample cfg st smp).1 smp2 <
          (cfg.multiplicator_to_detect : ℚ) * (processSample cfg st smp).1.diffavg →
      (processSample cfg st smp).1.numthresholded = 1 →
      (processSample cfg (processSample cfg st smp).1 smp2).2.isalarm = 1) := by
  have hmid : midState cfg st smp =
      { patternStep cfg smp.time { st with lineid := st.lineid + 1 } with
          isalarm := 0, iswait := 0 } := by
    unfold midState
    rw [waitOrCountStep_expire]
    · simpa using hw
    · simp only [patternStep_alarmraisetime]
      omega
  have hpost_iswait : (processSample cfg st smp).1.iswait = 0 := by
    rw [processSample_fst]
    simp [hmid]
  have hpost_nt : (processSample cfg st smp).1.numthresholded = st.numthresholded := by
    rw [processSample_fst]
    simp [hmid]
  refine ⟨?_, ?_, hpost_iswait, hpost_nt, ?_⟩
  · rw [processSample_out_iswait]
    exact hpost_iswait
  · rw [processSample_out_isalarm, processSample_fst]
    simp [hmid]
  · intro smp2 hbig hnt
    rw [processSample_out_isalarm, processSample_fst]
    have hmid2 : midState cfg (processSample cfg st smp).1 smp2 =
        { patternStep cfg smp2.time
            { (processSample cfg st smp).1 with
                lineid := (processSample cfg st smp).1.lineid + 1 } with
            isalarm := 1
            alarmraisetime := smp2.time
            iswait := 1
            numthresholded := cfg.number_of_points_to_alarm
            patternid :=
              (patternStep cfg smp2.time
                { (processSample cfg st smp).1 with
                    lineid := (processSample cfg st smp).1.lineid + 1 }).patternid + 1
            ispattern := 1
            patternraisetime := smp2.time } := by
      unfold midState
      rw [waitOrCountStep_fire]
      · simp [hpost_iswait]
      · simpa using hbig
      · simp only [patternStep_numthresholded]
        show (processSample cfg st smp).1.numthresholded - 1 = 0
        omega
    simp [hmid2]

/-- C8 (amended): outside the cooldown window a sample counts toward the
alarm run if and only if its absolute difference is at least
`multiplicator_to_detect × diffavg` (the code tests `diff < threshold` and
decrements otherwise, so exact equality counts as an exceedance and does
not reset); below the threshold `remaining_to_alarm` resets to
`run_length`, at or above it the counter is decremented, and from 1 it
fires the alarm and resets. -/
theorem C8_exceedance_threshold (cfg : Config) (st : DState) (smp : Sample)
    (hw : st.iswait = 0) :
    (sampleDiff st smp < (cfg.multiplicator_to_detect : ℚ) * st.diffavg →
      (processSample cfg st smp).1.numthresholded = cfg.number_of_points_to_alarm) ∧
    (¬ sampleDiff st smp < (cfg.multiplicator_to_detect : ℚ) * st.diffavg →
      ¬ st.numthresholded = 1 →
      (processSample cfg st smp).1.numthresholded = st.numthresholded - 1) ∧
    (¬ sampleDiff st smp < (cfg.multiplicator_to_detect : ℚ) * st.diffavg →
      st.numthresholded = 1 →
      (processSample cfg st smp).1.numthresholded = cfg.number_of_points_to_alarm ∧
        (processSample cfg st smp).2.isalarm = 1) := by
  have hw2 : ¬ (patternStep cfg smp.time { st with lineid := st.lineid + 1 }).iswait = 1 := by
    simp only [patternStep_iswait]
    show ¬ st.iswait = 1
    omega
  refine ⟨?_, ?_, ?_⟩
  · intro hd
    have hmid : midState cfg st smp =
        { patternStep cfg smp.time { st with lineid := st.lineid + 1 } with
            numthresholded := cfg.number_of_points_to_alarm } := by
      unfold midState
      rw [waitOrCountStep_reset cfg _ _ _ hw2]
      simpa using hd
    rw [processSample_fst]
    simp [hmid]
  · intro hd hnt
    have hmid : midState cfg st smp =
        { patternStep cfg smp.time { st with lineid := st.lineid + 1 } with
            numthresholded :=
              (patternStep cfg smp.time { st with lineid := st.lineid + 1 }).numthresholded
                - 1 } := by
      unfold midState
      rw [waitOrCountStep_decr cfg _ _ _ hw2]
      · simpa using hd
      · simp only [patternStep_numthresholded]
        show ¬ st.numthresholded - 1 = 0
        omega
    rw [processSample_fst]
    simp [hmid]
  · intro hd hnt
    have hmid : midState cfg st smp =
        { patternStep cfg smp.time { st with lineid := st.lineid + 1 } with
            isalarm := 1
            alarmraisetime := smp.time
            iswait := 1
            numthresholded := cfg.number_of_points_to_alarm
            patternid :=
              (patternStep cfg smp.time { st with lineid := st.lineid + 1 }).patternid + 1
            ispattern := 1
            patternraisetime := smp.time } := by
      unfold midState
      rw [waitOrCountStep_fire cfg _ _ _ hw2]
      · simpa using hd
      · simp only [patternStep_numthresholded]
        show st.numthresholded - 1 = 0
        omega
    constructor
    · rw [processSample_fst]
      simp [hmid]
    · rw [processSample_out_isalarm, processSample_fst]
      simp [hmid]

/-! ### Branch characterizations of a whole accepted-sample step -/

theorem processSample_wait_eq (cfg : Config) (st : DState) (smp : Sample)
    (hw : st.iswait = 1) :
    (processSample cfg st smp).2.isalarm = 0 ∧
    (processSample cfg st smp).1.patternid = st.patternid ∧
    (processSample cfg st smp).1.numthresholded = st.numthresholded := by
  rw [processSample_out_isalarm, processSample_fst]
  by_cases h : elapsedUsec smp.time st.alarmraisetime > cfg.wait_state_usec
  · have hmid : midState cfg st smp =
        { patternStep cfg smp.time { st with lineid := st.lineid + 1 } with
            isalarm := 0, iswait := 0 } := by
      unfold midState
      rw [waitOrCountStep_expire]
      · simpa using hw
      · simpa using h
    simp [hmid]
  · have hmid : midState cfg st smp =
        { patternStep cfg smp.time { st with lineid := st.lineid + 1 } with
            isalarm := 0 } := by
      unfold midState
      rw [waitOrCountStep_hold]
      · simpa using hw
      · simpa using h
    simp [hmid]

theorem processSample_reset_eq (cfg : Config) (st : DState) (smp : Sample)
    (hw : ¬ st.iswait = 1)
    (hd : sampleDiff st smp < (cfg.multiplicator_to_detect : ℚ) * st.diffavg) :
    (processSample cfg st smp).2.isalarm = st.isalarm ∧
    (processSample cfg st smp).1.patternid = st.patternid ∧
    (processSample cfg st smp).1.numthresholded = cfg.number_of_points_to_alarm := by
  rw [processSample_out_isalarm, processSample_fst]
  have hmid : midState cfg st smp =
      { patternStep cfg smp.time { st with lineid := st.lineid + 1 } with
          numthresholded := cfg.number_of_points_to_alarm } := by
    unfold midState
    rw [waitOrCountStep_reset]
    · simpa using hw
    · simpa using hd
  simp [hmid]

theorem processSample_decr_eq (cfg : Config) (st : DState) (smp : Sample)
    (hw : ¬ st.iswait = 1)
    (hd : ¬ sampleDiff st smp < (cfg.multiplicator_to_detect : ℚ) * st.diffavg)
    (hnt : ¬ st.numthresholded - 1 = 0) :
    (processSample cfg st smp).2.isalarm = st.isalarm ∧
    (processSample cfg st smp).1.patternid = st.patternid ∧
    (processSample cfg st smp).1.numthresholded = st.numthresholded - 1 := by
  rw [processSample_out_isalarm, processSample_fst]
  have hmid : midState cfg st smp =
      { patternStep cfg smp.time { st with lineid := st.lineid + 1 } with
          numthresholded :=
            (patternStep cfg smp.time { st with lineid := st.lineid + 1 }).numthresholded
              - 1 } := by
    unfold midState
    rw [waitOrCountStep_decr]
    · simpa using hw
    · simpa using hd
    · simpa using hnt
  simp [hmid]

theorem processSample_fire_eq (cfg : Config) (st : DState) (smp : Sample)
    (hw : ¬ st.iswait = 1)
    (hd : ¬ sampleDiff st smp < (cfg.multiplicator_to_detect : ℚ) * st.diffavg)
    (hnt : st.numthresholded - 1 = 0) :
    (processSample cfg st smp).2.isalarm = 1 ∧
    (processSample cfg st smp).2.iswait = 1 ∧
    (processSample cfg st smp).1.patternid = st.patternid + 1 ∧
    (processSample cfg st smp).1.ispattern = 1 ∧
    (processSample cfg st smp).2.patternid = st.patternid + 1 ∧
    (processSample cfg st smp).1.numthresholded = cfg.number_of_points_to_alarm := by
  have hmid : midState cfg st smp =
      { patternStep cfg smp.time { st with lineid := st.lineid + 1 } with
          isalarm := 1
          alarmraisetime := smp.time
          iswait := 1
          numthresholded := cfg.number_of_points_to_alarm
          patternid :=
            (patternStep cfg smp.time { st with lineid := st.lineid + 1 }).patternid + 1
          ispattern := 1
          patternraisetime := smp.time } := by
    unfold midState
    rw [waitOrCountStep_fire]
    · simpa using hw
    · simpa using hd
    · simpa using hnt
  refine ⟨?_, ?_, ?_, ?_, ?_, ?_⟩
  · rw [processSample_out_isalarm, processSample_fst]
    simp [hmid]
  · rw [processSample_out_iswait, processSample_fst]
    simp [hmid]
  · rw [processSample_fst]
    simp [hmid]
  · rw [processSample_fst]
    simp [hmid]
  · rw [processSample_out_patternid, processSample_fst]
    simp [hmid]
  · rw [processSample_fst]
    simp [hmid]

/-- An emitted alarm flag can only come from the alarm-raising branch:
the sample was processed outside the wait state, with the counter at 1,
at or above the detection threshold. -/
theorem processSample_alarm_classify (cfg : Config) (st : DState) (smp : Sample)
    (h : LoopInv cfg st)
    (ha : (processSample cfg st smp).2.isalarm = 1) :
    st.iswait = 0 ∧ st.numthresholded = 1 ∧
      ¬ sampleDiff st smp < (cfg.multiplicator_to_detect : ℚ) * st.diffavg := by
  obtain ⟨h1, h2, h3, h4, h5, h6, h7, h8⟩ := h
  rcases h4 with hw | hw
  · have hw1 : ¬ st.iswait = 1 := by omega
    by_cases hd : sampleDiff st smp < (cfg.multiplicator_to_detect : ℚ) * st.diffavg
    · exfalso
      have := (processSample_reset_eq cfg st smp hw1 hd).1
      rw [this] at ha
      omega
    · by_cases hnt : st.numthresholded - 1 = 0
      · exact ⟨hw, by omega, hd⟩
      · exfalso
        have := (processSample_decr_eq cfg st smp hw1 hd hnt).1
        rw [this] at ha
        omega
  · exfalso
    have := (processSample_wait_eq cfg st smp hw).1
    rw [this] at ha
    omega

/-- C4: after every accepted sample of a validly configured run,
`remaining_to_alarm` (`numthresholded`) lies in `[1, run_length]`, and the
emitted `isdetect` flag is 1 exactly when it differs from `run_length`. -/
theorem C4_remaining_to_alarm_bounds (cfg : Config) (hv : ValidConfig cfg)
    (input : List Sample) (s : Step) (hs : s ∈ steps cfg input) :
    (1 ≤ s.post.numthresholded ∧
      s.post.numthresholded ≤ cfg.number_of_points_to_alarm) ∧
    (s.out.isdetect = 1 ↔ ¬ s.post.numthresholded = cfg.number_of_points_to_alarm) := by
  have hinv := (steps_inv cfg hv input s hs).2
  have hsd := steps_sound cfg input s hs
  have hout : s.out = (processSample cfg s.pre s.smp).2 := congrArg Prod.snd hsd
  have hpost : s.post = (processSample cfg s.pre s.smp).1 := congrArg Prod.fst hsd
  refine ⟨⟨hinv.1, hinv.2.1⟩, ?_⟩
  rw [hout, hpost, processSample_out_isdetect]
  split_ifs with hc
  · simp [hc]
  · simp [hc]

/-- C5: a sample processed in wait state never emits the alarm flag, and an
emitted alarm flag happens only on the single sample that crosses the
run-length threshold (wait off, counter at 1, difference at or above the
detection threshold). -/
theorem C5_alarm_edge_triggered (cfg : Config) (hv : ValidConfig cfg)
    (input : List Sample) (s : Step) (hs : s ∈ steps cfg input) :
    (s.pre.iswait = 1 → s.out.isalarm = 0) ∧
    (s.out.isalarm = 1 →
      s.pre.iswait = 0 ∧ s.pre.numthresholded = 1 ∧
        ¬ sampleDiff s.pre s.smp <
          (cfg.multiplicator_to_detect : ℚ) * s.pre.diffavg) := by
  have hinv := (steps_inv cfg hv input s hs).1
  have hsd := steps_sound cfg input s hs
  have hout : s.out = (processSample cfg s.pre s.smp).2 := congrArg Prod.snd hsd
  constructor
  · intro hw
    rw [hout]
    exact (processSample_wait_eq cfg s.pre s.smp hw).1
  · intro ha
    rw [hout] at ha
    exact processSample_alarm_classify cfg s.pre s.smp hinv ha

/-- C10: a record that carries the alarm flag also carries the wait flag
and a strictly positive pattern id equal to the just-incremented
`patternid` counter. -/
theorem C10_alarm_record_fields (cfg : Config) (hv : ValidConfig cfg)
    (input : List Sample) (s : Step) (hs : s ∈ steps cfg input)
    (ha : s.out.isalarm = 1) :
    s.out.iswait = 1 ∧ s.out.patternid = s.pre.patternid + 1 ∧
      s.post.patternid = s.pre.patternid + 1 ∧ 1 ≤ s.out.patternid := by
  have hinv := (steps_inv cfg hv input s hs).1
  have hsd := steps_sound cfg input s hs
  have hout : s.out = (processSample cfg s.pre s.smp).2 := congrArg Prod.snd hsd
  have hpost : s.post = (processSample cfg s.pre s.smp).1 := congrArg Prod.fst hsd
  rw [hout] at ha
  obtain ⟨hw, hnt, hd⟩ := processSample_alarm_classify cfg s.pre s.smp hinv ha
  have hfire := processSample_fire_eq cfg s.pre s.smp (by omega) hd (by omega)
  have hp0 : 0 ≤ s.pre.patternid := hinv.2.2.2.2.2.1
  refine ⟨?_, ?_, ?_, ?_⟩
  · rw [hout]
    exact hfire.2.1
  · rw [hout]
    exact hfire.2.2.2.2.1
  · rw [hpost]
    exact hfire.2.2.1
  · rw [hout, hfire.2.2.2.2.1]
    omega

/-- On one accepted sample `patternid` grows by 1 exactly when the emitted
record carries the alarm flag, else it is unchanged. -/
theorem processSample_patternid_delta (cfg : Config) (st : DState) (smp : Sample)
    (h : LoopInv cfg st) :
    (processSample cfg st smp).1.patternid =
      st.patternid + (if (processSample cfg st smp).2.isalarm = 1 then 1 else 0) := by
  obtain ⟨h1, h2, h3, h4, h5, h6, h7, h8⟩ := h
  rcases h4 with hw | hw
  · have hw1 : ¬ st.iswait = 1 := by omega
    have hal : ¬ st.isalarm = 1 := by omega
    by_cases hd : sampleDiff st smp < (cfg.multiplicator_to_detect : ℚ) * st.diffavg
    · have he := processSample_reset_eq cfg st smp hw1 hd
      rw [he.2.1, he.1, if_neg hal]
      omega
    · by_cases hnt : st.numthresholded - 1 = 0
      · have he := processSample_fire_eq cfg st smp hw1 hd hnt
        rw [he.2.2.1, he.1, if_pos rfl]
      · have he := processSample_decr_eq cfg st smp hw1 hd hnt
        rw [he.2.1, he.1, if_neg hal]
        omega
  · have he := processSample_wait_eq cfg st smp hw
    rw [he.2.1, he.1]
    simp

/-- Along a validly configured run, the `patternid` counter after the
j-th accepted sample equals the number of alarm records emitted so far,
starting from the `patternid` the run entered with. -/
theorem stepsFrom_patternid_count (cfg : Config) (hv : ValidConfig cfg) :
    ∀ (input : List Sample) (st : DState), LoopInv cfg st →
      ∀ (j : ℕ) (s : Step), (stepsFrom cfg st input)[j]? = some s →
        s.post.patternid =
          st.patternid +
            (((stepsFrom cfg st input).take (j + 1)).countP
              (fun s2 => s2.out.isalarm == 1) : ℕ)
  | [], st => by simp [stepsFrom]
  | smp :: rest, st => by
    intro hst j s hs
    by_cases hc : st.cursample > 1
    · rw [stepsFrom, if_pos hc] at hs ⊢
      exact stepsFrom_patternid_count cfg hv rest
        { st with cursample := st.cursample - 1 } hst j s hs
    · simp only [stepsFrom, if_neg hc] at hs ⊢
      have hpre : LoopInv cfg ({ st with cursample := cfg.sampling }) := hst
      have hδ := processSample_patternid_delta cfg
        { st with cursample := cfg.sampling } smp hpre
      match j with
      | 0 =>
        rw [List.getElem?_cons_zero] at hs
        obtain rfl := Option.some.inj hs
        simp only [List.take_succ_cons, List.take_zero, List.countP_cons, List.countP_nil]
        rw [hδ]
        by_cases hb :
            (processSample cfg { st with cursample := cfg.sampling } smp).2.isalarm = 1 <;>
          simp [hb]
      | j + 1 =>
        rw [List.getElem?_cons_succ] at hs
        have hIH := stepsFrom_patternid_count cfg hv rest
          (processSample cfg { st with cursample := cfg.sampling } smp).1
          (loopInv_processSample cfg { st with cursample := cfg.sampling } smp hv hpre)
          j s hs
        rw [hIH, hδ]
        rw [List.take_succ_cons, List.countP_cons]
        by_cases hb :
            (processSample cfg { st with cursample := cfg.sampling } smp).2.isalarm = 1 <;>
          simp [hb] <;> push_cast <;> ring

/-- C6: across a whole validly configured run, the `patternid` after the
j-th accepted sample equals the number of alarm records among the first
j+1 records: it starts at 0, never decreases, is never reset, grows by
exactly 1 on each sample whose record carries the alarm flag and is
unchanged on every other sample. -/
theorem C6_patternid_counts_alarms (cfg : Config) (hv : ValidConfig cfg)
    (input : List Sample) (j : ℕ) (s : Step)
    (hs : (steps cfg input)[j]? = some s) :
    s.post.patternid =
      (((steps cfg input).take (j + 1)).countP (fun s2 => s2.out.isalarm == 1) : ℕ) := by
  have h := stepsFrom_patternid_count cfg hv input (initState cfg)
    (loopInv_initState cfg hv) j s hs
  simpa [steps, initState] using h

/-! ### Constant input streams (claim C9) -/

theorem patternStep_eq_self (cfg : Config) (t : Timeval) (st : DState)
    (h : ¬ (st.ispattern = 1 ∧ elapsedUsec t st.patternraisetime > cfg.pattern_state_usec)) :
    patternStep cfg t st = st :=
  if_neg h

/-- The decay ratio `(smoothing − 1)/smoothing` of the estimator on a
zero-difference sample. -/
def qratio (cfg : Config) : ℚ :=
  ((cfg.n_amend_avgdiff - 1 : Int) : ℚ) / (cfg.n_amend_avgdiff : ℚ)

/-- Invariant of a run fed with the constant value `v`: never in wait or
pattern state, no alarm, full countdown, and the estimator has decayed
geometrically once per accepted sample. -/
def C9Inv (cfg : Config) (v : ℚ) (st : DState) : Prop :=
  st.iswait = 0 ∧ st.isalarm = 0 ∧ st.ispattern = 0 ∧
    st.numthresholded = cfg.number_of_points_to_alarm ∧
    (st.lineid = 0 ∨ st.lastval = v) ∧ 0 ≤ st.lineid ∧
    st.diffavg = (cfg.initial_avg_diff : ℚ) * qratio cfg ^ st.lineid.toNat

theorem C9_step (cfg : Config) (hv : ValidConfig cfg) (hA : 2 ≤ cfg.n_amend_avgdiff)
    (v : ℚ) (st : DState) (smp : Sample) (hval : smp.value = v) (h : C9Inv cfg v st) :
    C9Inv cfg v (processSample cfg st smp).1 ∧
    (processSample cfg st smp).2.isalarm = 0 ∧
    (processSample cfg st smp).2.diff = 0 ∧
    (processSample cfg st smp).2.curavg =
      (cfg.initial_avg_diff : ℚ) * qratio cfg ^ (st.lineid.toNat + 1) := by
  obtain ⟨hv1, hv2, hv3, hv4, hv5, hv6, hv7⟩ := hv
  obtain ⟨h1, h2, h3, h4, h5, h6, h7⟩ := h
  have hA0 : (0 : ℚ) < (cfg.n_amend_avgdiff : ℚ) := by
    exact_mod_cast (by omega : (0 : Int) < cfg.n_amend_avgdiff)
  have hq0 : 0 < qratio cfg :=
    div_pos (by exact_mod_cast (by omega : (0 : Int) < cfg.n_amend_avgdiff - 1)) hA0
  have hd0 : (0 : ℚ) < (cfg.initial_avg_diff : ℚ) := by
    exact_mod_cast (by omega : (0 : Int) < cfg.initial_avg_diff)
  have hm0 : (0 : ℚ) < (cfg.multiplicator_to_detect : ℚ) := by
    exact_mod_cast (by omega : (0 : Int) < cfg.multiplicator_to_detect)
  have hdiff0 : sampleDiffSigned st smp = 0 := by
    unfold sampleDiffSigned
    split_ifs with hl
    · ring
    · rcases h5 with h5 | h5
      · exact absurd h5 hl
      · rw [hval, h5]
        ring
  have hdiffabs : sampleDiff st smp = 0 := by
    rw [sampleDiff, hdiff0, abs_zero]
  have hpos_avg : 0 < st.diffavg := by
    rw [h7]
    exact mul_pos hd0 (pow_pos hq0 _)
  have hthr : sampleDiff st smp < (cfg.multiplicator_to_detect : ℚ) * st.diffavg := by
    rw [hdiffabs]
    exact mul_pos hm0 hpos_avg
  have harg : patternStep cfg smp.time { st with lineid := st.lineid + 1 } =
      { st with lineid := st.lineid + 1 } := by
    apply patternStep_eq_self
    simp only [patternStep_lineid]
    intro hcon
    have : st.ispattern = 1 := hcon.1
    omega
  have hmid : midState cfg st smp =
      { st with
          lineid := st.lineid + 1
          numthresholded := cfg.number_of_points_to_alarm } := by
    unfold midState
    rw [harg, waitOrCountStep_reset]
    · show ¬ st.iswait = 1
      omega
    · exact hthr
  have hpost : (processSample cfg st smp).1 =
      { st with
          lineid := st.lineid + 1
          numthresholded := cfg.number_of_points_to_alarm
          diffavg := (st.diffavg * ((cfg.n_amend_avgdiff - 1 : Int) : ℚ) +
            sampleDiff st smp) / (cfg.n_amend_avgdiff : ℚ)
          lastval := smp.value } := by
    rw [processSample_fst, hmid]
    unfold amendStep
    rw [if_pos ⟨h1, rfl⟩]
  have hform : (st.diffavg * ((cfg.n_amend_avgdiff - 1 : Int) : ℚ) +
      sampleDiff st smp) / (cfg.n_amend_avgdiff : ℚ) =
      (cfg.initial_avg_diff : ℚ) * qratio cfg ^ (st.lineid.toNat + 1) := by
    rw [hdiffabs, h7, pow_succ, qratio]
    field_simp
    ring
  have hln : (st.lineid + 1).toNat = st.lineid.toNat + 1 := by omega
  refine ⟨⟨?_, ?_, ?_, ?_, ?_, ?_, ?_⟩, ?_, ?_, ?_⟩
  · rw [hpost]
    exact h1
  · rw [hpost]
    exact h2
  · rw [hpost]
    exact h3
  · rw [hpost]
  · rw [hpost]
    right
    exact hval
  · rw [hpost]
    show 0 ≤ st.lineid + 1
    omega
  · rw [hpost]
    show (st.diffavg * ((cfg.n_amend_avgdiff - 1 : Int) : ℚ) +
      sampleDiff st smp) / (cfg.n_amend_avgdiff : ℚ) =
      (cfg.initial_avg_diff : ℚ) * qratio cfg ^ ((st.lineid + 1).toNat)
    rw [hform, hln]
  · rw [processSample_out_isalarm, hpost]
    exact h2
  · rw [processSample_out_diff, hdiff0]
  · rw [processSample_out_curavg, hpost]
    exact hform

/-- On a stream whose accepted (non-decimated) samples all carry the
value `v` — decimated-out samples may vary — every emitted `diff` is 0,
for any configuration (the previous accepted value always equals the
current one). -/
theorem stepsFrom_diff_const (cfg : Config) (v : ℚ) :
    ∀ (input : List Sample) (st : DState),
      (∀ smp ∈ selectEvery cfg.sampling st.cursample input, smp.value = v) →
      (st.lineid = 0 ∨ st.lastval = v) →
      ∀ s ∈ stepsFrom cfg st input, s.out.diff = 0
  | [], st => by simp [stepsFrom]
  | smp :: rest, st => by
    intro hconst hlast s hs
    by_cases hc : st.cursample > 1
    · rw [stepsFrom, if_pos hc] at hs
      rw [selectEvery, if_pos hc] at hconst
      exact stepsFrom_diff_const cfg v rest { st with cursample := st.cursample - 1 }
        hconst hlast s hs
    · rw [stepsFrom, if_neg hc] at hs
      rw [selectEvery, if_neg hc] at hconst
      have hval : smp.value = v := hconst smp (List.mem_cons_self smp _)
      have hcur : (processSample cfg { st with cursample := cfg.sampling } smp).1.cursample =
          cfg.sampling := by simp
      have htail : ∀ smp2 ∈ selectEvery cfg.sampling
          (processSample cfg { st with cursample := cfg.sampling } smp).1.cursample rest,
          smp2.value = v := by
        intro x hx
        rw [hcur] at hx
        exact hconst x (List.mem_cons_of_mem smp hx)
      have hd0 : sampleDiffSigned { st with cursample := cfg.sampling } smp = 0 := by
        unfold sampleDiffSigned
        split_ifs with hl
        · ring
        · rcases hlast with hlast | hlast
          · exact absurd hlast hl
          · show smp.value - st.lastval = 0
            rw [hval, hlast]
            ring
      rcases List.mem_cons.mp hs with h | h
      · subst h
        show (processSample cfg { st with cursample := cfg.sampling } smp).2.diff = 0
        rw [processSample_out_diff, hd0]
      · exact stepsFrom_diff_const cfg v rest _ htail
          (Or.inr (by rw [processSample_post_lastval, hval])) s h

/-- On a stream whose accepted samples all carry the value `v`, under a
validly configured run with smoothing at least 2, no alarm fires and the
estimator decays geometrically per record. -/
theorem C9_run (cfg : Config) (hv : ValidConfig cfg) (hA : 2 ≤ cfg.n_amend_avgdiff)
    (v : ℚ) :
    ∀ (input : List Sample) (st : DState),
      (∀ smp ∈ selectEvery cfg.sampling st.cursample input, smp.value = v) →
      C9Inv cfg v st →
      ∀ (j : ℕ) (s : Step), (stepsFrom cfg st input)[j]? = some s →
        s.out.isalarm = 0 ∧
        s.out.curavg =
          (cfg.initial_avg_diff : ℚ) * qratio cfg ^ (st.lineid.toNat + j + 1)
  | [], st => by simp [stepsFrom]
  | smp :: rest, st => by
    intro hconst hst j s hs
    by_cases hc : st.cursample > 1
    · rw [stepsFrom, if_pos hc] at hs
      rw [selectEvery, if_pos hc] at hconst
      exact C9_run cfg hv hA v rest { st with cursample := st.cursample - 1 }
        hconst hst j s hs
    · rw [stepsFrom, if_neg hc] at hs
      rw [selectEvery, if_neg hc] at hconst
      have hval : smp.value = v := hconst smp (List.mem_cons_self smp _)
      have hpre : C9Inv cfg v ({ st with cursample := cfg.sampling }) := hst
      have hstep := C9_step cfg hv hA v { st with cursample := cfg.sampling } smp hval hpre
      have hcur : (processSample cfg { st with cursample := cfg.sampling } smp).1.cursample =
          cfg.sampling := by simp
      have htail : ∀ smp2 ∈ selectEvery cfg.sampling
          (processSample cfg { st with cursample := cfg.sampling } smp).1.cursample rest,
          smp2.value = v := by
        intro x hx
        rw [hcur] at hx
        exact hconst x (List.mem_cons_of_mem smp hx)
      match j with
      | 0 =>
        rw [List.getElem?_cons_zero] at hs
        obtain rfl := Option.some.inj hs
        exact ⟨hstep.2.1, hstep.2.2.2⟩
      | j + 1 =>
        rw [List.getElem?_cons_succ] at hs
        have hIH := C9_run cfg hv hA v rest
          (processSample cfg { st with cursample := cfg.sampling } smp).1
          htail hstep.1 j s hs
        refine ⟨hIH.1, ?_⟩
        rw [hIH.2]
        have hl6 : 0 ≤ st.lineid := hst.2.2.2.2.2.1
        have hln : (processSample cfg { st with cursample := cfg.sampling } smp).1.lineid =
            st.lineid + 1 := by
          rw [processSample_post_lineid]
        have : (processSample cfg
            { st with cursample := cfg.sampling } smp).1.lineid.toNat + j + 1 =
            st.lineid.toNat + (j + 1) + 1 := by
          rw [hln]
          omega
        rw [this]

/-- C9 (amended): on an input stream whose accepted (non-decimated)
samples — the `selectEvery`-selection the decimator forwards — all carry
the same value, every emitted record has `diff = 0` for every valid
configuration; when additionally the smoothing constant is at least 2
(the counterexample shows smoothing 1 collapses the estimator to 0 and
lets alarms fire on a constant signal), no record ever carries the alarm
flag, the emitted `curavg` values follow the geometric decay
`initial_avg_diff · ((smoothing−1)/smoothing)^(j+1)`, they are
non-increasing from record to record, and they fall below any positive
bound from some record index on. -/
theorem C9_constant_signal (cfg : Config) (hv : ValidConfig cfg) (v : ℚ)
    (input : List Sample)
    (hconst : ∀ smp ∈ selectEvery cfg.sampling cfg.sampling input, smp.value = v)
    (j : ℕ) (r : OutRec) (hr : (run cfg input)[j]? = some r) :
    r.diff = 0 ∧
    (2 ≤ cfg.n_amend_avgdiff →
      r.isalarm = 0 ∧
      r.curavg = (cfg.initial_avg_diff : ℚ) * qratio cfg ^ (j + 1) ∧
      (∀ r2 : OutRec, (run cfg input)[j + 1]? = some r2 → r2.curavg ≤ r.curavg) ∧
      (∀ ε : ℚ, 0 < ε → ∃ N : ℕ, ∀ m : ℕ, N ≤ m →
        (cfg.initial_avg_diff : ℚ) * qratio cfg ^ (m + 1) < ε)) := by
  have hr2 := hr
  unfold run steps at hr2
  rw [List.getElem?_map] at hr2
  rcases Option.map_eq_some'.mp hr2 with ⟨s, hs, hout⟩
  have hinit : C9Inv cfg v (initState cfg) := by
    refine ⟨rfl, rfl, rfl, rfl, Or.inl rfl, le_refl 0, ?_⟩
    show (cfg.initial_avg_diff : ℚ) = (cfg.initial_avg_diff : ℚ) * qratio cfg ^ (0 : Int).toNat
    simp
  constructor
  · rw [← hout]
    exact stepsFrom_diff_const cfg v input (initState cfg) hconst (Or.inl rfl) s
      (List.getElem?_mem hs)
  · intro hA
    have hmain := C9_run cfg hv hA v input (initState cfg) hconst hinit j s hs
    have hA0 : (0 : ℚ) < (cfg.n_amend_avgdiff : ℚ) := by
      exact_mod_cast (by omega : (0 : Int) < cfg.n_amend_avgdiff)
    have hq0 : 0 < qratio cfg :=
      div_pos (by exact_mod_cast (by omega : (0 : Int) < cfg.n_amend_avgdiff - 1)) hA0
    have hq1 : qratio cfg < 1 := by
      rw [qratio, div_lt_one hA0]
      exact_mod_cast (by omega : cfg.n_amend_avgdiff - 1 < cfg.n_amend_avgdiff)
    have hd0 : (0 : ℚ) < (cfg.initial_avg_diff : ℚ) := by
      have := hv.2.1
      exact_mod_cast (by omega : (0 : Int) < cfg.initial_avg_diff)
    have hcur : r.curavg = (cfg.initial_avg_diff : ℚ) * qratio cfg ^ (j + 1) := by
      rw [← hout]
      have := hmain.2
      simpa [initState] using this
    refine ⟨by rw [← hout]; exact hmain.1, hcur, ?_, ?_⟩
    · intro r2 hrr2
      have hrr3 := hrr2
      unfold run steps at hrr3
      rw [List.getElem?_map] at hrr3
      rcases Option.map_eq_some'.mp hrr3 with ⟨s2, hs2, hout2⟩
      have hmain2 := C9_run cfg hv hA v input (initState cfg) hconst hinit (j + 1) s2 hs2
      have hcur2 : r2.curavg = (cfg.initial_avg_diff : ℚ) * qratio cfg ^ (j + 2) := by
        rw [← hout2]
        have := hmain2.2
        simpa [initState] using this
      rw [hcur, hcur2]
      exact mul_le_mul_of_nonneg_left
        (pow_le_pow_of_le_one hq0.le hq1.le (by omega)) hd0.le
    · intro ε hε
      obtain ⟨N, hN⟩ := exists_pow_lt_of_lt_one (div_pos hε hd0) hq1
      refine ⟨N, fun m hm => ?_⟩
      calc (cfg.initial_avg_diff : ℚ) * qratio cfg ^ (m + 1)
          ≤ (cfg.initial_avg_diff : ℚ) * qratio cfg ^ N :=
            mul_le_mul_of_nonneg_left
              (pow_le_pow_of_le_one hq0.le hq1.le (by omega)) hd0.le
        _ < (cfg.initial_avg_diff : ℚ) * (ε / (cfg.initial_avg_diff : ℚ)) :=
            (mul_lt_mul_left hd0).mpr hN
        _ = ε := by
            field_simp

/-- C7: a partial parameter set (1–6 arguments) is rejected with an error
exit before any input is consumed, regardless of the input; with all seven
parameters, any value ≤ 0 is likewise rejected; with zero parameters the
run proceeds with the built-in defaults. -/
theorem C7_argument_validation :
    (∀ (args : List Int) (input : List Sample),
        1 ≤ args.length → args.length < 7 → mainRun args input = Except.error ()) ∧
    (∀ (args : List Int) (input : List Sample),
        args.length = 7 → (∃ a ∈ args, a ≤ 0) → mainRun args input = Except.error ()) ∧
    (∀ input : List Sample, mainRun [] input = Except.ok (run defaultConfig input)) := by
  refine ⟨?_, ?_, ?_⟩
  · intro args input h1 h7
    unfold mainRun
    have he : evalArgs args = Except.error () := by
      unfold evalArgs
      rw [if_pos ⟨by omega, h7⟩]
    rw [he]
  · intro args input h7 hex
    obtain ⟨a, ha, ha0⟩ := hex
    unfold mainRun
    have he : evalArgs args = Except.error () := by
      unfold evalArgs
      rw [if_neg (by omega : ¬ (0 < args.length ∧ args.length < 7))]
      dsimp only
      rw [dif_pos h7]
      rw [if_pos ?hcond]
      case hcond =>
        obtain ⟨⟨i, hi⟩, hget⟩ := List.mem_iff_get.mp ha
        have hi7 : i < 7 := by omega
        dsimp only
        interval_cases i
        · exact Or.inl (by rw [hget]; omega)
        · exact Or.inr (Or.inl (by rw [hget]; omega))
        · exact Or.inr (Or.inr (Or.inl (by rw [hget]; omega)))
        · exact Or.inr (Or.inr (Or.inr (Or.inl (by rw [hget]; omega))))
        · exact Or.inr (Or.inr (Or.inr (Or.inr (Or.inl (by rw [hget]; omega)))))
        · exact Or.inr (Or.inr (Or.inr (Or.inr (Or.inr (Or.inl (by rw [hget]; omega))))))
        · exact Or.inr (Or.inr (Or.inr (Or.inr (Or.inr (Or.inr (by rw [hget]; omega))))))
    rw [he]
  · intro input
    rfl

/-! ### Concrete scenarios -/

/-- Stride 1, seed 1, run length 1, cooldown 100 µs, multiplier 1,
smoothing 1, pattern window 100 µs. -/
def cfgW : Config := ⟨1, 1, 1, 100, 1, 1, 100⟩

/-- Two equal samples, then a huge jump exactly one microsecond after the
cooldown window has elapsed. -/
def xsC2 : List Sample := [⟨⟨0, 0⟩, 0⟩, ⟨⟨0, 1⟩, 0⟩, ⟨⟨0, 102⟩, 1000⟩]

/-- First accepted step of `run cfgW xsC2` (the estimator collapses to 0
because the smoothing constant is 1). -/
def stepW0 : Step :=
  { pre := ⟨1, 0, 0, 1, ⟨0, 0⟩, ⟨0, 0⟩, 0, 0, 1, 0, 0⟩
    smp := ⟨⟨0, 0⟩, 0⟩
    post := ⟨1, 0, 0, 1, ⟨0, 0⟩, ⟨0, 0⟩, 1, 0, 0, 0, 0⟩
    out := ⟨1, ⟨0, 0⟩, 0, 0, 0, 0, 0, 0, 0⟩ }

/-- Second accepted step: the alarm fires (threshold 0, run length 1). -/
def stepW1 : Step :=
  { pre := ⟨1, 0, 0, 1, ⟨0, 0⟩, ⟨0, 0⟩, 1, 0, 0, 0, 0⟩
    smp := ⟨⟨0, 1⟩, 0⟩
    post := ⟨1, 1, 1, 1, ⟨0, 1⟩, ⟨0, 1⟩, 2, 0, 0, 1, 1⟩
    out := ⟨2, ⟨0, 1⟩, 0, 0, 0, 0, 1, 1, 1⟩ }

/-- Third accepted step: processed at `t₀ + cooldown + 1 µs`; the wait
state ends, but the huge difference is not counted on this sample. -/
def stepW2 : Step :=
  { pre := ⟨1, 1, 1, 1, ⟨0, 1⟩, ⟨0, 1⟩, 2, 0, 0, 1, 1⟩
    smp := ⟨⟨0, 102⟩, 1000⟩
    post := ⟨1, 0, 0, 1, ⟨0, 1⟩, ⟨0, 1⟩, 3, 1000, 1000, 1, 0⟩
    out := ⟨3, ⟨0, 102⟩, 1000, 1000, 1000, 0, 0, 0, 0⟩ }

theorem steps_cfgW_xsC2 : steps cfgW xsC2 = [stepW0, stepW1, stepW2] := by
  norm_num [steps, stepsFrom, initState, cfgW, xsC2, processSample, midState,
    patternStep, waitOrCountStep, amendStep, sampleDiff, sampleDiffSigned, elapsedUsec,
    stepW0, stepW1, stepW2]

/-- C2 counterexample: in `run cfgW xsC2` the alarm fires at `t₀ = 1 µs`;
the next accepted sample arrives at `t₀ + cooldown + 1` with a difference
far above the threshold and the run length is 1, so if the
exceedance-counting logic ran on that sample it would raise an alarm — yet
the emitted record shows `iswait = 0` (as claimed) but `isalarm = 0` and
`isdetect = 0`, and `numthresholded` is untouched: the counting is skipped
on the expiry sample. -/
theorem C2_counterexample :
    ValidConfig cfgW ∧ cfgW.number_of_points_to_alarm = 1 ∧
    (steps cfgW xsC2)[1]? = some stepW1 ∧ stepW1.out.isalarm = 1 ∧
    stepW1.post.alarmraisetime = ⟨0, 1⟩ ∧
    (steps cfgW xsC2)[2]? = some stepW2 ∧
    elapsedUsec stepW2.smp.time stepW2.pre.alarmraisetime =
      cfgW.wait_state_usec + 1 ∧
    ¬ sampleDiff stepW2.pre stepW2.smp <
        (cfgW.multiplicator_to_detect : ℚ) * stepW2.pre.diffavg ∧
    stepW2.out.iswait = 0 ∧ stepW2.out.isalarm = 0 ∧ stepW2.out.isdetect = 0 ∧
    stepW2.post.numthresholded = stepW2.pre.numthresholded := by
  refine ⟨by decide, rfl, ?_, rfl, rfl, ?_, by decide, ?_, rfl, rfl, rfl, rfl⟩
  · rw [steps_cfgW_xsC2]
    rfl
  · rw [steps_cfgW_xsC2]
    rfl
  · norm_num [sampleDiff, sampleDiffSigned, stepW2, cfgW]

/-- C2 witness: the amended theorem applied to the wait-expiry step of the
concrete run (its hypotheses hold there and are discharged by
computation). -/
theorem C2_witness :
    (stepW2.pre.iswait = 1 ∧
      elapsedUsec stepW2.smp.time stepW2.pre.alarmraisetime =
        cfgW.wait_state_usec + 1) ∧
    ((processSample cfgW stepW2.pre stepW2.smp).2.iswait = 0 ∧
      (processSample cfgW stepW2.pre stepW2.smp).2.isalarm = 0 ∧
      (processSample cfgW stepW2.pre stepW2.smp).1.iswait = 0 ∧
      (processSample cfgW stepW2.pre stepW2.smp).1.numthresholded =
        stepW2.pre.numthresholded ∧
      (∀ smp2 : Sample,
        ¬ sampleDiff (processSample cfgW stepW2.pre stepW2.smp).1 smp2 <
            (cfgW.multiplicator_to_detect : ℚ) *
              (processSample cfgW stepW2.pre stepW2.smp).1.diffavg →
        (processSample cfgW stepW2.pre stepW2.smp).1.numthresholded = 1 →
        (processSample cfgW (processSample cfgW stepW2.pre stepW2.smp).1 smp2).2.isalarm
          = 1)) :=
  ⟨⟨rfl, by decide⟩, C2_cooldown_expiry cfgW stepW2.pre stepW2.smp rfl (by decide)⟩

/-- C4 witness: the bounds and the `isdetect` equivalence evaluated at the
alarm step of the concrete run. -/
theorem C4_witness :
    (ValidConfig cfgW ∧ stepW1 ∈ steps cfgW xsC2) ∧
    ((1 ≤ stepW1.post.numthresholded ∧
        stepW1.post.numthresholded ≤ cfgW.number_of_points_to_alarm) ∧
      (stepW1.out.isdetect = 1 ↔
        ¬ stepW1.post.numthresholded = cfgW.number_of_points_to_alarm)) :=
  ⟨⟨by decide, by rw [steps_cfgW_xsC2]; simp⟩,
    C4_remaining_to_alarm_bounds cfgW (by decide) xsC2 stepW1
      (by rw [steps_cfgW_xsC2]; simp)⟩

/-- C5 witness: the wait-suppression and edge-trigger facts evaluated at
the wait-expiry step of the concrete run. -/
theorem C5_witness :
    (ValidConfig cfgW ∧ stepW2 ∈ steps cfgW xsC2) ∧
    ((stepW2.pre.iswait = 1 → stepW2.out.isalarm = 0) ∧
      (stepW2.out.isalarm = 1 →
        stepW2.pre.iswait = 0 ∧ stepW2.pre.numthresholded = 1 ∧
          ¬ sampleDiff stepW2.pre stepW2.smp <
            (cfgW.multiplicator_to_detect : ℚ) * stepW2.pre.diffavg)) :=
  ⟨⟨by decide, by rw [steps_cfgW_xsC2]; simp⟩,
    C5_alarm_edge_triggered cfgW (by decide) xsC2 stepW2
      (by rw [steps_cfgW_xsC2]; simp)⟩

/-- C6 witness: the patternid-equals-alarm-count characterization at the
alarm step (index 1) of the concrete run. -/
theorem C6_witness :
    (ValidConfig cfgW ∧ (steps cfgW xsC2)[1]? = some stepW1) ∧
    stepW1.post.patternid =
      (((steps cfgW xsC2).take (1 + 1)).countP
        (fun s2 => s2.out.isalarm == 1) : ℕ) :=
  ⟨⟨by decide, by rw [steps_cfgW_xsC2]; rfl⟩,
    C6_patternid_counts_alarms cfgW (by decide) xsC2 1 stepW1
      (by rw [steps_cfgW_xsC2]; rfl)⟩

/-- C10 witness: the alarm-record fields evaluated at the alarm step of
the concrete run. -/
theorem C10_witness :
    (ValidConfig cfgW ∧ stepW1 ∈ steps cfgW xsC2 ∧ stepW1.out.isalarm = 1) ∧
    (stepW1.out.iswait = 1 ∧ stepW1.out.patternid = stepW1.pre.patternid + 1 ∧
      stepW1.post.patternid = stepW1.pre.patternid + 1 ∧ 1 ≤ stepW1.out.patternid) :=
  ⟨⟨by decide, by rw [steps_cfgW_xsC2]; simp, rfl⟩,
    C10_alarm_record_fields cfgW (by decide) xsC2 stepW1
      (by rw [steps_cfgW_xsC2]; simp) rfl⟩

/-- Stride 1, seed 2, run length 2, cooldown 100 µs, multiplier 1,
smoothing 2, pattern window 100 µs. -/
def cfg8 : Config := ⟨1, 2, 2, 100, 1, 2, 100⟩

/-- A zero sample, then a sample whose difference is exactly the detection
threshold of the moment (`1 × 1`). -/
def xs8 : List Sample := [⟨⟨0, 0⟩, 0⟩, ⟨⟨0, 1⟩, 1⟩]

/-- First accepted step of `run cfg8 xs8`: the estimator becomes 1. -/
def step80 : Step :=
  { pre := ⟨1, 0, 0, 2, ⟨0, 0⟩, ⟨0, 0⟩, 0, 0, 2, 0, 0⟩
    smp := ⟨⟨0, 0⟩, 0⟩
    post := ⟨1, 0, 0, 2, ⟨0, 0⟩, ⟨0, 0⟩, 1, 0, 1, 0, 0⟩
    out := ⟨1, ⟨0, 0⟩, 0, 0, 1, 0, 0, 0, 0⟩ }

/-- Second accepted step: `diff = 1` equals the threshold exactly and
the counter is decremented (2 → 1). -/
def step81 : Step :=
  { pre := ⟨1, 0, 0, 2, ⟨0, 0⟩, ⟨0, 0⟩, 1, 0, 1, 0, 0⟩
    smp := ⟨⟨0, 1⟩, 1⟩
    post := ⟨1, 0, 0, 1, ⟨0, 0⟩, ⟨0, 0⟩, 2, 1, 1, 0, 0⟩
    out := ⟨2, ⟨0, 1⟩, 1, 1, 1, 1, 0, 0, 0⟩ }

theorem steps_cfg8_xs8 : steps cfg8 xs8 = [step80, step81] := by
  norm_num [steps, stepsFrom, initState, cfg8, xs8, processSample, midState,
    patternStep, waitOrCountStep, amendStep, sampleDiff, sampleDiffSigned, elapsedUsec,
    step80, step81]

/-- C8 counterexample: in `run cfg8 xs8` the second sample's absolute
difference equals `multiplicator_to_detect × diffavg` exactly; the claim
says such a sample is not an exceedance and resets the counter to the run
length (2, so `isdetect = 0`), but the code decrements it to 1 and emits
`isdetect = 1`. -/
theorem C8_counterexample :
    ValidConfig cfg8 ∧
    (steps cfg8 xs8)[1]? = some step81 ∧
    sampleDiff step81.pre step81.smp =
      (cfg8.multiplicator_to_detect : ℚ) * step81.pre.diffavg ∧
    step81.pre.iswait = 0 ∧ step81.pre.numthresholded = 2 ∧
    step81.post.numthresholded = 1 ∧
    ¬ step81.post.numthresholded = cfg8.number_of_points_to_alarm ∧
    step81.out.isdetect = 1 := by
  refine ⟨by decide, ?_, ?_, rfl, rfl, rfl, by decide, rfl⟩
  · rw [steps_cfg8_xs8]
    rfl
  · norm_num [sampleDiff, sampleDiffSigned, step81, cfg8]

/-- C8 witness: the amended threshold dichotomy applied at the
equal-to-threshold step of the concrete run. -/
theorem C8_witness :
    step81.pre.iswait = 0 ∧
    ((sampleDiff step81.pre step81.smp <
        (cfg8.multiplicator_to_detect : ℚ) * step81.pre.diffavg →
      (processSample cfg8 step81.pre step81.smp).1.numthresholded =
        cfg8.number_of_points_to_alarm) ∧
    (¬ sampleDiff step81.pre step81.smp <
        (cfg8.multiplicator_to_detect : ℚ) * step81.pre.diffavg →
      ¬ step81.pre.numthresholded = 1 →
      (processSample cfg8 step81.pre step81.smp).1.numthresholded =
        step81.pre.numthresholded - 1) ∧
    (¬ sampleDiff step81.pre step81.smp <
        (cfg8.multiplicator_to_detect : ℚ) * step81.pre.diffavg →
      step81.pre.numthresholded = 1 →
      (processSample cfg8 step81.pre step81.smp).1.numthresholded =
        cfg8.number_of_points_to_alarm ∧
        (processSample cfg8 step81.pre step81.smp).2.isalarm = 1)) :=
  ⟨rfl, C8_exceedance_threshold cfg8 step81.pre step81.smp rfl⟩

/-- Two equal samples, value 5. -/
def xsC9 : List Sample := [⟨⟨0, 0⟩, 5⟩, ⟨⟨0, 1⟩, 5⟩]

/-- C9 counterexample: with the valid configuration `cfgW` (smoothing 1)
a constant stream raises an alarm: the first amendment collapses the
estimator to exactly 0, the next zero difference is not below the zero
threshold, and with run length 1 the alarm fires on the second record. -/
theorem C9_counterexample :
    ValidConfig cfgW ∧ (∀ smp ∈ xsC9, smp.value = 5) ∧
    cfgW.n_amend_avgdiff = 1 ∧
    (run cfgW xsC9).map OutRec.diff = [0, 0] ∧
    (run cfgW xsC9).map OutRec.curavg = [0, 0] ∧
    (run cfgW xsC9).map OutRec.isalarm = [0, 1] := by
  refine ⟨by decide, by simp [xsC9], rfl, ?_, ?_, ?_⟩ <;>
    norm_num [run, steps, stepsFrom, initState, cfgW, xsC9, processSample, midState,
      patternStep, waitOrCountStep, amendStep, sampleDiff, sampleDiffSigned, elapsedUsec]

/-- Stride 2, seed 1, run length 1, cooldown 100 µs, multiplier 1,
smoothing 2, pattern window 100 µs. -/
def cfg9w : Config := ⟨2, 1, 1, 100, 1, 2, 100⟩

/-- Four samples whose accepted (2nd and 4th) samples carry the constant
value 5 while the decimated-out ones (99 and 77) vary. -/
def xsC9w : List Sample :=
  [⟨⟨0, 0⟩, 99⟩, ⟨⟨0, 1⟩, 5⟩, ⟨⟨0, 2⟩, 77⟩, ⟨⟨0, 3⟩, 5⟩]

/-- First record of `run cfg9w xsC9w`: the estimator has decayed to 1/2. -/
def r90 : OutRec := ⟨1, ⟨0, 1⟩, 5, 0, 1/2, 0, 0, 0, 0⟩

theorem run_cfg9w_xsC9w : (run cfg9w xsC9w)[0]? = some r90 := by
  norm_num [run, steps, stepsFrom, initState, cfg9w, xsC9w, processSample, midState,
    patternStep, waitOrCountStep, amendStep, sampleDiff, sampleDiffSigned, elapsedUsec,
    r90]

/-- C9 witness: the amended constant-accepted-signal theorem applied to a
smoothing-2, stride-2 configuration, a stream whose dropped samples vary
but whose accepted samples are all 5, and its first record. -/
theorem C9_witness :
    (ValidConfig cfg9w ∧
      (∀ smp ∈ selectEvery cfg9w.sampling cfg9w.sampling xsC9w, smp.value = 5) ∧
      (run cfg9w xsC9w)[0]? = some r90) ∧
    (r90.diff = 0 ∧
      (2 ≤ cfg9w.n_amend_avgdiff →
        r90.isalarm = 0 ∧
        r90.curavg = (cfg9w.initial_avg_diff : ℚ) * qratio cfg9w ^ (0 + 1) ∧
        (∀ r2 : OutRec, (run cfg9w xsC9w)[0 + 1]? = some r2 → r2.curavg ≤ r90.curavg) ∧
        (∀ ε : ℚ, 0 < ε → ∃ N : ℕ, ∀ m : ℕ, N ≤ m →
          (cfg9w.initial_avg_diff : ℚ) * qratio cfg9w ^ (m + 1) < ε))) :=
  ⟨⟨by decide, by norm_num [selectEvery, cfg9w, xsC9w], run_cfg9w_xsC9w⟩,
    C9_constant_signal cfg9w (by decide) 5 xsC9w
      (by norm_num [selectEvery, cfg9w, xsC9w]) 0 r90 run_cfg9w_xsC9w⟩
